import Mathlib

/-!
Verification of the tabctl bridging/IPC layer against its specification.

The definitions below are shallow embeddings of the JavaScript sources:
`src/native-host.js` (frame codec, request correlator, bridge server),
`src/client.js` (endpoint discovery, fan-out/aggregation, identity and
formatting helpers) and the legacy single-socket client.  Machine-level
integers are modelled as `Nat`/`Int`; byte buffers as `List Nat`;
JavaScript `undefined`/absent fields as `Option`; promise settlement as
`Except` values or explicit outcome lists.
-/

namespace Tabctl

/-! ### Frame codec (`src/native-host.js`, `writeNativeMessage` / `processStdin`)

`writeNativeMessage` stringifies the message, allocates `4 + json.length`
zero-filled bytes — `json.length` counting UTF-16 code units — writes that
count as a little-endian prefix (`writeUInt32LE`, defined for values below
`2^32`) and then UTF-8 encodes the text into the remaining room.  When the
UTF-8 byte count exceeds the code-unit count (any non-ASCII text) the
write truncates at a character boundary and the tail stays zero.  Texts
are modelled as `List Char` and byte buffers as `List Nat`. -/

/-- The 4 little-endian bytes produced by `buf.writeUInt32LE(n, 0)`. -/
def le32 (n : Nat) : List Nat :=
  [n % 256, n / 256 % 256, n / 65536 % 256, n / 16777216 % 256]

/-- The value read by `buf.readUInt32LE(0)` from the first four bytes. -/
def readLE32 (buf : List Nat) : Nat :=
  buf.getD 0 0 + buf.getD 1 0 * 256 + buf.getD 2 0 * 65536 + buf.getD 3 0 * 16777216

/-- The idealized byte-count-prefixed frame: a little-endian byte-length
prefix followed by the payload.  `writeNativeMessage` produces exactly
this shape only when the text's UTF-8 byte count equals its UTF-16
code-unit count (in particular for ASCII JSON). -/
def encodeFrame (payload : List Nat) : List Nat :=
  le32 payload.length ++ payload

/-- UTF-16 code units of one character (what JavaScript `length` counts). -/
def utf16Units (c : Char) : Nat :=
  if c.toNat < 65536 then 1 else 2

/-- JavaScript `json.length`: the UTF-16 code-unit count of the text. -/
def utf16Len (cs : List Char) : Nat :=
  (cs.map utf16Units).sum

/-- The UTF-8 bytes of one character. -/
def utf8Bytes (c : Char) : List Nat :=
  let v := c.toNat
  if v < 128 then [v]
  else if v < 2048 then [192 + v / 64, 128 + v % 64]
  else if v < 65536 then [224 + v / 4096, 128 + v / 64 % 64, 128 + v % 64]
  else [240 + v / 262144, 128 + v / 4096 % 64, 128 + v / 64 % 64, 128 + v % 64]

/-- The UTF-8 encoding of a text. -/
def utf8Encode (cs : List Char) : List Nat :=
  (cs.map utf8Bytes).flatten

/-- `buf.write(json, 4)` into `cap` bytes of room: characters are UTF-8
encoded sequentially and the write stops before the first character that
no longer fits (Node never writes partial characters). -/
def bufWrite (cap : Nat) (cs : List Char) : List Nat :=
  match cs with
  | [] => []
  | c :: t =>
      let bs := utf8Bytes c
      if bs.length ≤ cap then bs ++ bufWrite (cap - bs.length) t
      else []

/-- `writeNativeMessage(msg)` applied to the stringified text: the
UTF-16 code-unit count as little-endian prefix, the (possibly truncated)
UTF-8 write, and the zero fill of the unwritten rest of the buffer. -/
def writeNativeMessage (json : List Char) : List Nat :=
  let len := utf16Len json
  let written := bufWrite len json
  le32 len ++ written ++ List.replicate (len - written.length) 0

/-- The `processStdin` loop: repeatedly strip complete frames off the front
of `stdinBuf`, returning the decoded payloads in order together with the
leftover (incomplete) buffer.  The loop returns as soon as fewer than
4 bytes remain or the announced payload is not yet fully buffered. -/
def processBuf (buf : List Nat) : List (List Nat) × List Nat :=
  if _h1 : buf.length < 4 then ([], buf)
  else
    let msgLen := readLE32 buf
    if _h2 : buf.length < 4 + msgLen then ([], buf)
    else
      let nxt := processBuf (buf.drop (4 + msgLen))
      (((buf.drop 4).take msgLen) :: nxt.1, nxt.2)
termination_by buf.length
decreasing_by
  simp only [List.length_drop]
  omega

/-- A buffer holds no complete frame: the decoder leaves it untouched. -/
def Stuck (buf : List Nat) : Prop :=
  buf.length < 4 ∨ buf.length < 4 + readLE32 buf

instance (buf : List Nat) : Decidable (Stuck buf) := by
  unfold Stuck; infer_instance

/-- The `process.stdin.on('data')` handler: each chunk is appended to
`stdinBuf` and `processStdin` is run; decoded messages accumulate across
chunks and the leftover buffer is threaded through. -/
def feedChunks : List (List Nat) → List Nat → List (List Nat) × List Nat
  | [], buf => ([], buf)
  | c :: cs, buf =>
      let p := processBuf (buf ++ c)
      let q := feedChunks cs p.2
      (p.1 ++ q.1, q.2)

theorem processBuf_of_stuck {buf : List Nat} (h : Stuck buf) :
    processBuf buf = ([], buf) := by
  rw [processBuf]
  rcases h with h | h
  · simp [h]
  · by_cases h4 : buf.length < 4
    · simp [h4]
    · simp [h4, h]

theorem processBuf_step {buf : List Nat} (h : 4 + readLE32 buf ≤ buf.length) :
    processBuf buf =
      (((buf.drop 4).take (readLE32 buf)) :: (processBuf (buf.drop (4 + readLE32 buf))).1,
        (processBuf (buf.drop (4 + readLE32 buf))).2) := by
  rw [processBuf]
  have h4 : ¬ buf.length < 4 := by omega
  have h2 : ¬ buf.length < 4 + readLE32 buf := by omega
  simp [h4, h2]

theorem readLE32_append {buf extra : List Nat} (h : 4 ≤ buf.length) :
    readLE32 (buf ++ extra) = readLE32 buf := by
  unfold readLE32
  rw [List.getD_append _ _ _ 0 (by omega), List.getD_append _ _ _ 1 (by omega),
    List.getD_append _ _ _ 2 (by omega), List.getD_append _ _ _ 3 (by omega)]

/-- Decoding a buffer extended on the right first yields the frames of the
original buffer, then continues on the leftover plus the extension. -/
theorem processBuf_append (buf extra : List Nat) :
    processBuf (buf ++ extra) =
      ((processBuf buf).1 ++ (processBuf ((processBuf buf).2 ++ extra)).1,
        (processBuf ((processBuf buf).2 ++ extra)).2) := by
  generalize hn : buf.length = n
  induction n using Nat.strong_induction_on generalizing buf with
  | _ n ih =>
    by_cases hs : Stuck buf
    · rw [processBuf_of_stuck hs]
      simp
    · have h4 : 4 ≤ buf.length := by
        by_contra hlt
        exact hs (Or.inl (by omega))
      have hfull : 4 + readLE32 buf ≤ buf.length := by
        by_contra hlt
        exact hs (Or.inr (by omega))
      have hfull' : 4 + readLE32 (buf ++ extra) ≤ (buf ++ extra).length := by
        rw [readLE32_append h4, List.length_append]
        omega
      rw [processBuf_step hfull, processBuf_step hfull', readLE32_append h4]
      rw [List.drop_append_of_le_length (by omega),
        List.drop_append_of_le_length (by omega),
        List.take_append_of_le_length (by simp [List.length_drop]; omega)]
      have ihres := ih (buf.drop (4 + readLE32 buf)).length
        (by simp [List.length_drop]; omega) (buf.drop (4 + readLE32 buf)) rfl
      rw [ihres]
      simp

/-- The leftover produced by the decoder never holds a complete frame. -/
theorem processBuf_snd_stuck (buf : List Nat) : Stuck (processBuf buf).2 := by
  generalize hn : buf.length = n
  induction n using Nat.strong_induction_on generalizing buf with
  | _ n ih =>
    by_cases hs : Stuck buf
    · rw [processBuf_of_stuck hs]; exact hs
    · have h4 : 4 ≤ buf.length := by
        by_contra hlt
        exact hs (Or.inl (by omega))
      have hfull : 4 + readLE32 buf ≤ buf.length := by
        by_contra hlt
        exact hs (Or.inr (by omega))
      rw [processBuf_step hfull]
      exact ih (buf.drop (4 + readLE32 buf)).length
        (by simp [List.length_drop]; omega) _ rfl

/-- Chunk-by-chunk feeding is equivalent to decoding the whole stream at
once, provided the starting buffer is a leftover (holds no complete frame). -/
theorem feedChunks_eq_processBuf (chunks : List (List Nat)) (buf : List Nat)
    (h : Stuck buf) :
    feedChunks chunks buf = processBuf (buf ++ chunks.flatten) := by
  induction chunks generalizing buf with
  | nil => simp [feedChunks, processBuf_of_stuck h]
  | cons c cs ih =>
    simp only [feedChunks, List.flatten_cons]
    rw [ih (processBuf (buf ++ c)).2 (processBuf_snd_stuck (buf ++ c))]
    rw [← List.append_assoc, processBuf_append (buf ++ c) cs.flatten]

/-- `readUInt32LE` inverts `writeUInt32LE` for lengths below `2^32`. -/
theorem readLE32_le32 (n : Nat) (t : List Nat) (h : n < 4294967296) :
    readLE32 (le32 n ++ t) = n := by
  simp only [le32, readLE32, List.cons_append, List.nil_append, List.getD_cons_zero,
    List.getD_cons_succ]
  omega

/-- Decoding a stream of encoded frames followed by residue `t` yields
exactly the encoded payloads, then whatever the residue decodes to. -/
theorem processBuf_encode (msgs : List (List Nat)) (t : List Nat)
    (hlen : ∀ m ∈ msgs, m.length < 4294967296) :
    processBuf ((msgs.map encodeFrame).flatten ++ t) =
      (msgs ++ (processBuf t).1, (processBuf t).2) := by
  induction msgs with
  | nil => simp
  | cons m ms ih =>
    simp only [List.map_cons, List.flatten_cons, List.append_assoc]
    have hm : m.length < 4294967296 := hlen m (by simp)
    have hlenEnc : (encodeFrame m).length = 4 + m.length := by
      simp [encodeFrame, le32]
      omega
    have hread : readLE32 (encodeFrame m ++ ((ms.map encodeFrame).flatten ++ t)) =
        m.length := by
      simpa only [encodeFrame, List.append_assoc] using
        readLE32_le32 m.length (m ++ ((ms.map encodeFrame).flatten ++ t)) hm
    have hlength : 4 + readLE32 (encodeFrame m ++ ((ms.map encodeFrame).flatten ++ t))
        ≤ (encodeFrame m ++ ((ms.map encodeFrame).flatten ++ t)).length := by
      rw [hread, List.length_append, hlenEnc]
      omega
    rw [processBuf_step hlength, hread]
    have hdrop4 : (encodeFrame m ++ ((ms.map encodeFrame).flatten ++ t)).drop 4 =
        m ++ ((ms.map encodeFrame).flatten ++ t) := by
      rw [List.drop_append_of_le_length (by omega)]
      simp [encodeFrame, le32]
    have hdropAll : (encodeFrame m ++ ((ms.map encodeFrame).flatten ++ t)).drop
        (4 + m.length) = (ms.map encodeFrame).flatten ++ t := by
      rw [List.drop_append_of_le_length (by omega), ← hlenEnc, List.drop_length,
        List.nil_append]
    rw [hdrop4, hdropAll, List.take_append_of_le_length (le_refl m.length),
      List.take_length, ih (fun x hx => hlen x (by simp [hx]))]
    simp

/-- Byte-level framing round-trip: a stream of `encodeFrame` frames fed
to the decoder in arbitrary chunks (plus a trailing partial frame `t`)
yields exactly the framed payloads, with `t` left buffered. -/
theorem byte_frame_roundtrip (msgs chunks : List (List Nat)) (t : List Nat)
    (hlen : ∀ m ∈ msgs, m.length < 4294967296)
    (ht : Stuck t)
    (hchunks : chunks.flatten = (msgs.map encodeFrame).flatten ++ t) :
    feedChunks chunks [] = (msgs, t) := by
  have h0 : Stuck ([] : List Nat) := Or.inl (by simp)
  rw [feedChunks_eq_processBuf chunks [] h0, List.nil_append, hchunks,
    processBuf_encode msgs t hlen, processBuf_of_stuck ht]
  simp

theorem utf8Bytes_ascii {c : Char} (h : c.toNat < 128) : utf8Bytes c = [c.toNat] := by
  simp [utf8Bytes, h]

theorem utf16Len_ascii (m : List Char) (h : ∀ c ∈ m, c.toNat < 128) :
    utf16Len m = m.length := by
  induction m with
  | nil => rfl
  | cons c t ih =>
      have hc : c.toNat < 65536 := lt_of_lt_of_le (h c (by simp)) (by norm_num)
      have ht := ih (fun x hx => h x (by simp [hx]))
      simp only [utf16Len, List.map_cons, List.sum_cons, utf16Units, if_pos hc,
        List.length_cons]
      simp only [utf16Len] at ht
      omega

theorem utf8Encode_ascii (m : List Char) (h : ∀ c ∈ m, c.toNat < 128) :
    utf8Encode m = m.map Char.toNat := by
  induction m with
  | nil => rfl
  | cons c t ih =>
      simp only [utf8Encode, List.map_cons, List.flatten_cons,
        utf8Bytes_ascii (h c (by simp))]
      rw [show (t.map utf8Bytes).flatten = utf8Encode t from rfl,
        ih (fun x hx => h x (by simp [hx]))]
      rfl

theorem bufWrite_ascii (m : List Char) : ∀ cap : Nat, (∀ c ∈ m, c.toNat < 128) →
    m.length ≤ cap → bufWrite cap m = m.map Char.toNat := by
  induction m with
  | nil => intro cap _ _; rfl
  | cons c t ih =>
      intro cap h hcap
      unfold bufWrite
      dsimp only
      rw [utf8Bytes_ascii (h c (by simp))]
      have hlen : ([c.toNat] : List Nat).length ≤ cap := by
        simp only [List.length_cons] at hcap ⊢
        simp only [List.length_nil]
        omega
      rw [if_pos hlen]
      have hcap' : t.length ≤ cap - [c.toNat].length := by
        simp only [List.length_cons, List.length_nil] at hcap ⊢
        omega
      rw [ih (cap - [c.toNat].length) (fun x hx => h x (by simp [hx])) hcap']
      rfl

/-- On an ASCII text the real encoder coincides with the idealized
byte-count-prefixed framing of the UTF-8 bytes. -/
theorem writeNativeMessage_ascii (m : List Char) (h : ∀ c ∈ m, c.toNat < 128) :
    writeNativeMessage m = encodeFrame (utf8Encode m) := by
  unfold writeNativeMessage
  dsimp only
  rw [utf16Len_ascii m h, bufWrite_ascii m m.length h (le_refl _),
    utf8Encode_ascii m h]
  simp [encodeFrame]

/-- The JSON text `"é"`: three UTF-16 code units but four UTF-8 bytes. -/
def jsonEacute : List Char := ['"', 'é', '"']

/-- C2 counterexample: on the non-ASCII message `"é"` the encoder
allocates room for only `json.length` (UTF-16 code-unit count) payload
bytes, so the closing quote is truncated: the emitted frame is not the
length-prefixed UTF-8 encoding of the message, and decoding the emitted
stream yields the corrupted payload `[34, 195, 169]` instead of the
original message — the universal round-trip fails. -/
theorem writeNativeMessage_truncates_nonascii :
    writeNativeMessage jsonEacute ≠ encodeFrame (utf8Encode jsonEacute) ∧
    feedChunks [writeNativeMessage jsonEacute] [] ≠ ([utf8Encode jsonEacute], []) := by
  constructor
  · decide
  · have h1 : feedChunks [writeNativeMessage jsonEacute] [] =
        ([[34, 195, 169]], []) := by
      rw [feedChunks_eq_processBuf _ _ (Or.inl (by decide))]
      have he : ([] : List Nat) ++ ([writeNativeMessage jsonEacute]).flatten =
          (([[34, 195, 169]] : List (List Nat)).map encodeFrame).flatten ++ [] := by
        decide
      rw [he, processBuf_encode [[34, 195, 169]] [] (by decide),
        processBuf_of_stuck (Or.inl (by decide))]
      rfl
    rw [h1]
    decide

/-- C2 (amended): for message sequences whose JSON texts are ASCII (every
character below U+0080, so the UTF-16 prefix equals the UTF-8 byte count),
the encoder emits exactly the 4-byte little-endian length prefix followed
by the UTF-8 JSON bytes, and for every partition of the concatenated
encoded bytes into chunks (plus a trailing partial frame `t`) the decoded
concatenation equals the original message sequence with `t` left buffered;
a non-ASCII text is truncated by the encoder and breaks the round-trip. -/
theorem frame_codec_roundtrip_ascii (msgs : List (List Char))
    (chunks : List (List Nat)) (t : List Nat)
    (hascii : ∀ m ∈ msgs, ∀ c ∈ m, c.toNat < 128)
    (hlen : ∀ m ∈ msgs, m.length < 4294967296)
    (ht : Stuck t)
    (hchunks : chunks.flatten = (msgs.map writeNativeMessage).flatten ++ t) :
    (∀ m ∈ msgs, writeNativeMessage m = encodeFrame (utf8Encode m)) ∧
    feedChunks chunks [] = (msgs.map utf8Encode, t) := by
  have henc : ∀ m ∈ msgs, writeNativeMessage m = encodeFrame (utf8Encode m) :=
    fun m hm => writeNativeMessage_ascii m (hascii m hm)
  refine ⟨henc, ?_⟩
  have hmap : msgs.map writeNativeMessage = (msgs.map utf8Encode).map encodeFrame := by
    rw [List.map_map]
    exact List.map_congr_left henc
  have hlen' : ∀ p ∈ msgs.map utf8Encode, p.length < 4294967296 := by
    intro p hp
    obtain ⟨m, hm, rfl⟩ := List.mem_map.mp hp
    rw [utf8Encode_ascii m (hascii m hm), List.length_map]
    exact hlen m hm
  exact byte_frame_roundtrip (msgs.map utf8Encode) chunks t hlen' ht
    (by rw [hchunks, hmap])

/-- Witness for the amended C2: the ASCII message `AB` framed as
`[2,0,0,0,65,66]`, split at arbitrary chunk boundaries with three trailing
bytes of an incomplete frame. -/
theorem frame_codec_roundtrip_ascii_witness :
    (∀ m ∈ [['A', 'B']], writeNativeMessage m = encodeFrame (utf8Encode m)) ∧
    feedChunks [[2, 0], [0, 0, 65], [66, 1, 0], [0]] [] =
      ([['A', 'B']].map utf8Encode, [1, 0, 0]) :=
  frame_codec_roundtrip_ascii [['A', 'B']]
    [[2, 0], [0, 0, 65], [66, 1, 0], [0]] [1, 0, 0]
    (by decide) (by decide) (by decide) (by decide)

/-! ### Endpoint discovery (`src/client.js`, `socketPath` / `findSockets`)
and the bridge server's bind address (`src/native-host.js`, `SOCKET_PATH`).

A filesystem is modelled as the predicate `fsExists` passed to discovery
(`fs.existsSync`). -/

/-- `KNOWN_BROWSERS` from `src/client.js`. -/
def KNOWN_BROWSERS : List String := ["firefox", "chrome"]

/-- `socketPath(browser)` from `src/client.js`: the well-known per-label
address probed by client-side discovery. -/
def socketPath (browser : String) : String :=
  "/tmp/tabctl-" ++ browser ++ ".sock"

/-- `SOCKET_PATH` from `src/native-host.js`: the address the bridge server
binds its listening socket to (`server.listen(SOCKET_PATH)`). -/
def SOCKET_PATH : String := "/tmp/browsercli.sock"

/-- A discovered bridge endpoint, `{ browser, path }`. -/
structure Endpoint where
  browser : String
  path : String
  deriving DecidableEq, Repr

/-- `findSockets(filterBrowser)`: enumerate the candidate labels (all known
browsers, or just the filter when it is a truthy string), compute each
well-known address, and keep those that exist on the filesystem. -/
def findSockets (filterBrowser : Option String) (fsExists : String → Bool) :
    List Endpoint :=
  let browsers := match filterBrowser with
    | some b => if b = "" then KNOWN_BROWSERS else [b]
    | none => KNOWN_BROWSERS
  (browsers.map (fun b => ⟨b, socketPath b⟩)).filter (fun s => fsExists s.path)

/-- C1 (code bug): for every known browser label the address computed by
discovery differs from the address the bridge server binds, and on a
filesystem where exactly the bridge's bound socket exists, discovery
retains no endpoint at all — a running bridge is never discovered. -/
theorem socketPath_never_matches_bridge :
    (∀ b ∈ KNOWN_BROWSERS, socketPath b ≠ SOCKET_PATH) ∧
    findSockets none (fun p => p == SOCKET_PATH) = [] := by
  decide

/-- Witness for C1 at the label `"firefox"`: the probed address is
`/tmp/tabctl-firefox.sock` while the bridge listens on
`/tmp/browsercli.sock`. -/
theorem socketPath_never_matches_bridge_witness :
    socketPath "firefox" ≠ SOCKET_PATH ∧
    findSockets none (fun p => p == SOCKET_PATH) = [] :=
  ⟨socketPath_never_matches_bridge.1 "firefox" (by decide),
    socketPath_never_matches_bridge.2⟩

/-! ### Fan-out / aggregation (`src/client.js`, `request` / `requestAll`)

The settlement of `requestOne` at an endpoint is abstracted as an
`Except String Nat` valued function: `.ok data` for a fulfilled promise,
`.error message` for a rejected one (bridge-carried error, invalid
response, timeout, or connection error). -/

/-- The message thrown by `request`/`requestAll` when discovery finds no
socket. -/
def noBrowsersMsg : String :=
  "No browsers connected. Make sure:\n  1. Run \"tabctl install\" to register the native host\n  2. Open your browser with the tabctl extension installed\n  3. The extension will auto-launch the native host"

/-- One entry of the `Promise.allSettled` array after
`requestOne(s.path, msg).then((data) => ({ browser: s.browser, data }))`:
`some` when fulfilled, `none` when rejected. -/
def fulfilledPair (outcome : Endpoint → Except String Nat) (s : Endpoint) :
    Option (String × Nat) :=
  match outcome s with
  | .ok d => some (s.browser, d)
  | .error _ => none

/-- `requestAll(msg, filterBrowser)`: discover sockets, throw when none,
otherwise settle all concurrent `requestOne` calls and keep only the
fulfilled `{browser, data}` results, in endpoint order. -/
def requestAll (filterBrowser : Option String) (fsExists : String → Bool)
    (outcome : Endpoint → Except String Nat) :
    Except String (List (String × Nat)) :=
  let sockets := findSockets filterBrowser fsExists
  if sockets = [] then .error noBrowsersMsg
  else .ok (sockets.filterMap (fulfilledPair outcome))

/-- `request(msg, filterBrowser)`: discover sockets, throw when none,
otherwise use the first available socket. -/
def request (filterBrowser : Option String) (fsExists : String → Bool) :
    Except String Endpoint :=
  match findSockets filterBrowser fsExists with
  | [] => .error noBrowsersMsg
  | s :: _ => .ok s

/-- A settlement that rejected (the endpoint failed or timed out). -/
def isRejected (outcome : Endpoint → Except String Nat) (s : Endpoint) : Bool :=
  match outcome s with
  | .ok _ => false
  | .error _ => true

theorem length_filterMap_fulfilled (outcome : Endpoint → Except String Nat)
    (l : List Endpoint) :
    (l.filterMap (fulfilledPair outcome)).length =
      l.length - (l.filter (isRejected outcome)).length := by
  induction l with
  | nil => rfl
  | cons x xs ih =>
    have hfl : (xs.filter (isRejected outcome)).length ≤ xs.length :=
      List.length_filter_le _ _
    rcases hx : outcome x with e | d
    · simp [List.filterMap_cons, List.filter_cons, fulfilledPair, isRejected, hx, ih]
    · simp [List.filterMap_cons, List.filter_cons, fulfilledPair, isRejected, hx, ih]
      omega

/-- C4: `requestAll` succeeds exactly when discovery is non-empty; on
success it returns precisely the fulfilled `{browser, data}` results,
`N − M` of them when `M` of the `N` endpoints fail or time out; with zero
endpoints it raises the no-bridges error. -/
theorem requestAll_partial_failure (filterBrowser : Option String)
    (fsExists : String → Bool) (outcome : Endpoint → Except String Nat) :
    ((requestAll filterBrowser fsExists outcome).isOk ↔
        findSockets filterBrowser fsExists ≠ []) ∧
    (findSockets filterBrowser fsExists = [] →
        requestAll filterBrowser fsExists outcome = .error noBrowsersMsg) ∧
    (findSockets filterBrowser fsExists ≠ [] →
        requestAll filterBrowser fsExists outcome =
          .ok ((findSockets filterBrowser fsExists).filterMap
            (fulfilledPair outcome)) ∧
        ((findSockets filterBrowser fsExists).filterMap
            (fulfilledPair outcome)).length =
          (findSockets filterBrowser fsExists).length -
            ((findSockets filterBrowser fsExists).filter
              (isRejected outcome)).length) := by
  refine ⟨?_, ?_, ?_⟩
  · unfold requestAll
    by_cases h : findSockets filterBrowser fsExists = []
    · simp [h, Except.isOk, Except.toBool]
    · simp [h, Except.isOk, Except.toBool]
  · intro h
    unfold requestAll
    simp [h]
  · intro h
    unfold requestAll
    simp only [h, if_neg h]
    exact ⟨rfl, length_filterMap_fulfilled outcome _⟩

/-- A filesystem on which both well-known client socket addresses exist. -/
def fsBoth : String → Bool :=
  fun p => p == socketPath "firefox" || p == socketPath "chrome"

/-- A settlement where the firefox bridge answers and the chrome bridge
times out. -/
def outcomeChromeFails : Endpoint → Except String Nat :=
  fun s => if s.browser == "firefox" then .ok 5 else .error "Request timed out"

/-- Witness for C4: two discovered endpoints, one failing; the call returns
the single fulfilled result and does not raise. -/
theorem requestAll_partial_failure_witness :
    findSockets none fsBoth ≠ [] ∧
    requestAll none fsBoth outcomeChromeFails =
      .ok ((findSockets none fsBoth).filterMap (fulfilledPair outcomeChromeFails)) ∧
    ((findSockets none fsBoth).filterMap (fulfilledPair outcomeChromeFails)).length =
      (findSockets none fsBoth).length -
        ((findSockets none fsBoth).filter
          (isRejected outcomeChromeFails)).length :=
  ⟨by decide,
    ((requestAll_partial_failure none fsBoth outcomeChromeFails).2.2 (by decide)).1,
    ((requestAll_partial_failure none fsBoth outcomeChromeFails).2.2 (by decide)).2⟩

/-! ### Identity parsing (`src/client.js`, `parsePrefixedId`)

`parseInt(str, 10)` is modelled faithfully: leading JavaScript whitespace
is skipped, an optional sign is consumed, then the longest run of decimal
digits is read; the result is `NaN` (here `none`) only when that run is
empty, and any trailing characters are ignored. -/

/-- Characters skipped by `parseInt` before the number. -/
def jsWhitespace (c : Char) : Bool :=
  c = ' ' ∨ c = '\t' ∨ c = '\n' ∨ c = '\r' ∨ c = '\x0b' ∨ c = '\x0c'

/-- Value of a run of decimal digit characters. -/
def digitsVal (ds : List Char) : Nat :=
  ds.foldl (fun a c => a * 10 + (c.toNat - 48)) 0

/-- The longest leading digit run, or `none` when there is none. -/
def digitRunVal (cs : List Char) : Option Nat :=
  let ds := cs.takeWhile Char.isDigit
  if ds = [] then none else some (digitsVal ds)

/-- `parseInt(s, 10)` restricted to its decimal behaviour. -/
def jsParseInt10 (s : String) : Option Int :=
  match s.data.dropWhile jsWhitespace with
  | [] => none
  | c :: t =>
      if c = '-' then (digitRunVal t).map (fun n => -(n : Int))
      else if c = '+' then (digitRunVal t).map (fun n => (n : Int))
      else (digitRunVal (c :: t)).map (fun n => (n : Int))

/-- `str.indexOf(':')` together with the two `slice` calls: `none` when no
colon occurs, otherwise the text before and after the first colon. -/
def splitFirstColon : List Char → Option (List Char × List Char)
  | [] => none
  | c :: t =>
      if c = ':' then some ([], t)
      else (splitFirstColon t).map (fun p => (c :: p.1, p.2))

/-- `parsePrefixedId(id)`: on a colon, the text before it is the browser
label and the suffix goes through `parseInt`; without a colon the whole
string goes through `parseInt` and the browser is the sole discovered
socket's label, or `null` otherwise. -/
def parsePrefixedId (id : String) (fsExists : String → Bool) :
    Except String (Option String × Int) :=
  match splitFirstColon id.data with
  | some (pre, suf) =>
      match jsParseInt10 (String.mk suf) with
      | none => .error ("Invalid tab ID: " ++ id)
      | some n => .ok (some (String.mk pre), n)
  | none =>
      match jsParseInt10 id with
      | none => .error ("Invalid tab ID: " ++ id)
      | some n =>
          match findSockets none fsExists with
          | [s] => .ok (some s.browser, n)
          | _ => .ok (none, n)

/-- The single-target dispatch path shared by `closeTab`, `activateTab`
and `moveTab`: parse the id, then `request` with the parsed label, which
connects to the first socket that discovery returns for that label. -/
def singleTargetDispatch (id : String) (fsExists : String → Bool) :
    Except String (Endpoint × Int) :=
  match parsePrefixedId id fsExists with
  | .error e => .error e
  | .ok (browser, tabId) =>
      match request browser fsExists with
      | .error e => .error e
      | .ok s => .ok (s, tabId)

/-- C5 counterexample: the suffix `"42abc"` does not wholly parse as a
base-10 integer, yet `parsePrefixedId` accepts the input and silently
truncates it to 42 instead of failing with an invalid-id error. -/
theorem parsePrefixedId_truncates :
    parsePrefixedId "chrome:42abc" (fun _ => false) = .ok (some "chrome", 42) := by
  rfl

theorem takeWhile_append_of_head_neg {p : Char → Bool} (ds rest : List Char)
    (hds : ∀ c ∈ ds, p c) (hr : ∀ c, rest.head? = some c → p c = false) :
    (ds ++ rest).takeWhile p = ds := by
  induction ds with
  | nil =>
      cases rest with
      | nil => rfl
      | cons c t => simp [List.takeWhile_cons, hr c rfl]
  | cons d ds ih =>
      simp only [List.cons_append, List.takeWhile_cons, hds d (by simp), if_pos rfl]
      simp [ih (fun c hc => hds c (by simp [hc]))]

theorem splitFirstColon_left (label suf : List Char) (hl : ':' ∉ label) :
    splitFirstColon (label ++ ':' :: suf) = some (label, suf) := by
  induction label with
  | nil => simp [splitFirstColon]
  | cons c t ih =>
      have hc : ¬ c = ':' := fun h => hl (by simp [h])
      simp [splitFirstColon, hc, ih (fun h => hl (by simp [h]))]

/-- `parseInt` on a string starting with a digit run keeps exactly that
run and discards the rest. -/
theorem jsParseInt10_digit_run (d : Char) (ds rest : List Char)
    (hds : ∀ c ∈ d :: ds, c.isDigit)
    (hr : ∀ c, rest.head? = some c → c.isDigit = false) :
    jsParseInt10 (String.mk ((d :: ds) ++ rest)) =
      some (digitsVal (d :: ds) : Int) := by
  have hdd : d.isDigit := hds d (by simp)
  have hnotws : jsWhitespace d = false := by
    simp only [jsWhitespace, decide_eq_false_iff_not]
    rintro (h | h | h | h | h | h) <;> (subst h; exact absurd hdd (by decide))
  have hnotminus : ¬ d = '-' := by
    intro h
    subst h
    exact absurd hdd (by decide)
  have hnotplus : ¬ d = '+' := by
    intro h
    subst h
    exact absurd hdd (by decide)
  have htake := takeWhile_append_of_head_neg (p := Char.isDigit) (d :: ds) rest hds hr
  unfold jsParseInt10
  have hdrop : (String.mk ((d :: ds) ++ rest)).data.dropWhile jsWhitespace =
      d :: (ds ++ rest) := by
    simp [List.dropWhile_cons, hnotws]
  rw [hdrop]
  dsimp only
  rw [if_neg hnotminus, if_neg hnotplus]
  have heq : d :: (ds ++ rest) = (d :: ds) ++ rest := rfl
  rw [heq]
  have hdr : digitRunVal ((d :: ds) ++ rest) = some (digitsVal (d :: ds)) := by
    simp only [digitRunVal]
    rw [htake]
    simp
  rw [hdr]
  rfl

theorem splitFirstColon_none (l : List Char) (h : ∀ c ∈ l, ¬ c = ':') :
    splitFirstColon l = none := by
  induction l with
  | nil => rfl
  | cons c t ih =>
      simp [splitFirstColon, h c (by simp), ih (fun c hc => h c (by simp [hc]))]

/-- C5 (amended): with a colon present, parsing succeeds exactly when the
suffix starts (per `parseInt`) with a decimal digit run; the value is that
of the longest leading run and trailing non-digit characters are silently
discarded rather than rejected, while a suffix with no leading digits
fails with the invalid-id error. -/
theorem parsePrefixedId_amended (ex : String → Bool) :
    (∀ (label : List Char) (d : Char) (ds rest : List Char),
      ':' ∉ label → (∀ c ∈ d :: ds, c.isDigit) →
      (∀ c, rest.head? = some c → c.isDigit = false) →
      parsePrefixedId (String.mk (label ++ ':' :: ((d :: ds) ++ rest))) ex =
        .ok (some (String.mk label), (digitsVal (d :: ds) : Int))) ∧
    (∀ (label suf : List Char), ':' ∉ label →
      jsParseInt10 (String.mk suf) = none →
      parsePrefixedId (String.mk (label ++ ':' :: suf)) ex =
        .error ("Invalid tab ID: " ++ String.mk (label ++ ':' :: suf))) := by
  constructor
  · intro label d ds rest hl hds hr
    unfold parsePrefixedId
    dsimp only
    rw [splitFirstColon_left label _ hl]
    dsimp only
    rw [jsParseInt10_digit_run d ds rest hds hr]
  · intro label suf hl hnone
    unfold parsePrefixedId
    dsimp only
    rw [splitFirstColon_left label suf hl]
    dsimp only
    rw [hnone]

/-- Witness for the amended C5: `"firefox:7xyz"` parses to
`("firefox", 7)`, and `"firefox:nope"` is rejected. -/
theorem parsePrefixedId_amended_witness :
    parsePrefixedId "firefox:7xyz" (fun _ => false) = .ok (some "firefox", 7) ∧
    parsePrefixedId "firefox:nope" (fun _ => false) =
      .error "Invalid tab ID: firefox:nope" :=
  ⟨(parsePrefixedId_amended (fun _ => false)).1
      "firefox".data '7' [] "xyz".data (by decide) (by decide) (by decide),
    (parsePrefixedId_amended (fun _ => false)).2
      "firefox".data "nope".data (by decide) (by rfl)⟩

/-- C6 counterexample: with two bridges discovered (`fsBoth`), the
unprefixed id `"42"` is still accepted — the label resolves to `null` —
and the single-target dispatch path sends the operation to the first
discovered bridge (firefox) instead of rejecting it. -/
theorem unprefixed_dispatch_ambiguous :
    parsePrefixedId "42" fsBoth = .ok (none, 42) ∧
    singleTargetDispatch "42" fsBoth =
      .ok (⟨"firefox", "/tmp/tabctl-firefox.sock"⟩, 42) :=
  ⟨rfl, rfl⟩

/-- C6 (amended): an unprefixed numeric id infers its bridge only when
exactly one endpoint is discovered; with two or more endpoints the label
resolves to `null` and the operation is nevertheless dispatched, to the
first endpoint in discovery order, rather than being rejected. -/
theorem unprefixed_inference_amended (ex : String → Bool) (d : Char)
    (ds : List Char) (hds : ∀ c ∈ d :: ds, c.isDigit) :
    (∀ s, findSockets none ex = [s] →
        parsePrefixedId (String.mk (d :: ds)) ex =
          .ok (some s.browser, (digitsVal (d :: ds) : Int))) ∧
    (∀ s s' t, findSockets none ex = s :: s' :: t →
        parsePrefixedId (String.mk (d :: ds)) ex =
          .ok (none, (digitsVal (d :: ds) : Int)) ∧
        singleTargetDispatch (String.mk (d :: ds)) ex =
          .ok (s, (digitsVal (d :: ds) : Int))) := by
  have hnocolon : splitFirstColon (d :: ds) = none := by
    refine splitFirstColon_none (d :: ds) (fun c hc h => ?_)
    have := hds c hc
    rw [h] at this
    exact absurd this (by decide)
  have hparse : jsParseInt10 (String.mk (d :: ds)) =
      some (digitsVal (d :: ds) : Int) := by
    have h := jsParseInt10_digit_run d ds [] hds (fun c hc => by simp at hc)
    rwa [List.append_nil] at h
  constructor
  · intro s hs
    unfold parsePrefixedId
    dsimp only
    rw [hnocolon]
    dsimp only
    rw [hparse]
    dsimp only
    rw [hs]
  · intro s s' t hs
    have hp : parsePrefixedId (String.mk (d :: ds)) ex =
        .ok (none, (digitsVal (d :: ds) : Int)) := by
      unfold parsePrefixedId
      dsimp only
      rw [hnocolon]
      dsimp only
      rw [hparse]
      dsimp only
      rw [hs]
    refine ⟨hp, ?_⟩
    unfold singleTargetDispatch
    rw [hp]
    dsimp only
    unfold request
    rw [hs]

/-- Witness for the amended C6: both bridges are discoverable and the
unprefixed id `"57"` is dispatched to the first one (firefox). -/
theorem unprefixed_inference_amended_witness :
    parsePrefixedId "57" fsBoth = .ok (none, (digitsVal ['5', '7'] : Int)) ∧
    singleTargetDispatch "57" fsBoth =
      .ok (⟨"firefox", socketPath "firefox"⟩, (digitsVal ['5', '7'] : Int)) :=
  (unprefixed_inference_amended fsBoth '5' ['7'] (by decide)).2
    ⟨"firefox", socketPath "firefox"⟩ ⟨"chrome", socketPath "chrome"⟩ []
    (by rfl)

/-! ### Connection-error handling

`src/client.js`'s `requestOne` installs `conn.on('error', (err) => { if
(!done) { done = true; clearTimeout(timer); reject(err); } })`: every
error is propagated unchanged.  The legacy single-socket client's
`request` additionally translates `ECONNREFUSED`/`ENOENT` into a
user-facing "not running" message. -/

/-- A Node.js error object: its `code` property (absent on plain
`new Error(...)`) and its message. -/
structure JsError where
  code : Option String
  message : String
  deriving DecidableEq, Repr

/-- The user-facing message of the legacy client's translation. -/
def cannotConnectMsg : String :=
  "Cannot connect to native host. Make sure your browser is open with the BrowserCLI extension."

/-- The `conn.on('error')` handler of `requestOne` in `src/client.js`:
`none` when the request already settled, otherwise the rejection value. -/
def requestOneOnError (done : Bool) (err : JsError) : Option JsError :=
  if done then none else some err

/-- The `conn.on('error')` handler of the legacy client's `request`. -/
def legacyRequestOnError (done : Bool) (err : JsError) : Option JsError :=
  if done then none
  else if err.code = some "ECONNREFUSED" ∨ err.code = some "ENOENT" then
    some ⟨none, cannotConnectMsg⟩
  else some err

/-- C7 counterexample: a connection-refused error reaching `requestOne` is
rejected verbatim — its message is the raw socket error, not the
user-facing "not running" message the claim requires. -/
theorem requestOne_no_translation :
    requestOneOnError false
        ⟨some "ECONNREFUSED", "connect ECONNREFUSED /tmp/tabctl-firefox.sock"⟩ =
      some ⟨some "ECONNREFUSED", "connect ECONNREFUSED /tmp/tabctl-firefox.sock"⟩ ∧
    "connect ECONNREFUSED /tmp/tabctl-firefox.sock" ≠ cannotConnectMsg := by
  exact ⟨rfl, by decide⟩

/-- C7 (amended): `requestOne` propagates every connection error to the
caller unchanged; the translation of connection-refused/absent-address
errors into the user-facing "not running" condition — keeping the two
kinds distinct — exists only in the legacy single-socket client. -/
theorem connection_error_amended :
    (∀ e : JsError, requestOneOnError false e = some e) ∧
    (∀ e : JsError, e.code = some "ECONNREFUSED" ∨ e.code = some "ENOENT" →
        legacyRequestOnError false e = some ⟨none, cannotConnectMsg⟩) ∧
    (∀ e : JsError, ¬ (e.code = some "ECONNREFUSED" ∨ e.code = some "ENOENT") →
        legacyRequestOnError false e = some e) := by
  refine ⟨fun e => rfl, fun e he => ?_, fun e he => ?_⟩
  · simp [legacyRequestOnError, he]
  · simp [legacyRequestOnError, he]

/-- Witness for the amended C7: a refused connection is translated by the
legacy handler but passed through by `requestOne`, while a distinct I/O
error (`EPIPE`) is passed through by both. -/
theorem connection_error_amended_witness :
    requestOneOnError false ⟨some "EPIPE", "broken pipe"⟩ =
      some ⟨some "EPIPE", "broken pipe"⟩ ∧
    legacyRequestOnError false ⟨some "ECONNREFUSED", "connect ECONNREFUSED"⟩ =
      some ⟨none, cannotConnectMsg⟩ ∧
    legacyRequestOnError false ⟨some "EPIPE", "broken pipe"⟩ =
      some ⟨some "EPIPE", "broken pipe"⟩ :=
  ⟨connection_error_amended.1 ⟨some "EPIPE", "broken pipe"⟩,
    connection_error_amended.2.1 ⟨some "ECONNREFUSED", "connect ECONNREFUSED"⟩
      (by exact Or.inl rfl),
    connection_error_amended.2.2 ⟨some "EPIPE", "broken pipe"⟩ (by decide)⟩

/-! ### `formatAge` (`src/client.js`)

`Math.floor` of a real division by a positive constant is floor division,
`Int.fdiv`; the `%` in the day and hour branches only ever sees
non-negative operands, where JavaScript `%` agrees with `Int.emod`. -/

/-- `formatAge(ms)` over integer millisecond durations. -/
def formatAge (ms : Int) : String :=
  let seconds := Int.fdiv ms 1000
  let minutes := Int.fdiv seconds 60
  let hours := Int.fdiv minutes 60
  let days := Int.fdiv hours 24
  if days > 0 then toString days ++ "d " ++ toString (hours % 24) ++ "h"
  else if hours > 0 then toString hours ++ "h " ++ toString (minutes % 60) ++ "m"
  else toString minutes ++ "m"

/-- C8 counterexample: a negative duration renders as `"-1m"`, not `"0m"`
as the claim states. -/
theorem formatAge_negative_not_zero :
    formatAge (-60000) = "-1m" ∧ formatAge (-60000) ≠ "0m" ∧
    formatAge (-1) = "-1m" := by
  refine ⟨by rfl, ?_, by rfl⟩
  intro h
  rw [show formatAge (-60000) = "-1m" from rfl] at h
  exact absurd h (by decide)

/-- C8 (amended): the three positive rendering clauses hold as specified
(days/hours/minutes with integer-minute granularity, zero renders `"0m"`),
but a negative duration renders its floor-divided negative minute count
(for example `"-1m"`), never `"0m"`. -/
theorem formatAge_amended (ms : Int) :
    (86400000 ≤ ms → formatAge ms =
        toString (Int.fdiv ms 86400000) ++ "d " ++
          toString (Int.fdiv ms 3600000 % 24) ++ "h") ∧
    (3600000 ≤ ms → ms < 86400000 → formatAge ms =
        toString (Int.fdiv ms 3600000) ++ "h " ++
          toString (Int.fdiv ms 60000 % 60) ++ "m") ∧
    (0 ≤ ms → ms < 3600000 → formatAge ms = toString (Int.fdiv ms 60000) ++ "m") ∧
    (ms < 0 → formatAge ms = toString (Int.fdiv ms 60000) ++ "m" ∧
        Int.fdiv ms 60000 < 0) := by
  have hfd : ∀ (a b : Int), 0 < b → a.fdiv b = a / b :=
    fun a b hb => Int.fdiv_eq_ediv a (le_of_lt hb)
  unfold formatAge
  dsimp only
  rw [hfd ms 1000 (by norm_num), hfd (ms / 1000) 60 (by norm_num),
    hfd (ms / 1000 / 60) 60 (by norm_num), hfd (ms / 1000 / 60 / 60) 24 (by norm_num),
    hfd ms 86400000 (by norm_num), hfd ms 3600000 (by norm_num),
    hfd ms 60000 (by norm_num)]
  have hday : ms / 1000 / 60 / 60 / 24 = ms / 86400000 := by omega
  have hhr : ms / 1000 / 60 / 60 = ms / 3600000 := by omega
  have hmin : ms / 1000 / 60 = ms / 60000 := by omega
  rw [hday, hhr, hmin]
  refine ⟨?_, ?_, ?_, ?_⟩
  · intro h
    rw [if_pos (by omega)]
  · intro h1 h2
    rw [if_neg (by omega), if_pos (by omega)]
  · intro h1 h2
    rw [if_neg (by omega), if_neg (by omega)]
  · intro h
    rw [if_neg (by omega), if_neg (by omega)]
    exact ⟨rfl, by omega⟩

/-- Witness for the amended C8 at 26 hours, 2 h 15 m, 5 minutes and a
negative duration. -/
theorem formatAge_amended_witness :
    formatAge 93600000 =
      toString (Int.fdiv 93600000 86400000) ++ "d " ++
        toString (Int.fdiv 93600000 3600000 % 24) ++ "h" ∧
    formatAge 8100000 =
      toString (Int.fdiv 8100000 3600000) ++ "h " ++
        toString (Int.fdiv 8100000 60000 % 60) ++ "m" ∧
    formatAge 300000 = toString (Int.fdiv 300000 60000) ++ "m" ∧
    formatAge (-120000) = toString (Int.fdiv (-120000) 60000) ++ "m" :=
  ⟨(formatAge_amended 93600000).1 (by norm_num),
    (formatAge_amended 8100000).2.1 (by norm_num) (by norm_num),
    (formatAge_amended 300000).2.2.1 (by norm_num) (by norm_num),
    ((formatAge_amended (-120000)).2.2.2 (by norm_num)).1⟩

/-! ### Entity normalization (`src/client.js`, `formatTab`)

Absent (`undefined`) fields of the raw browser tab record are `none`.
The two runtime builtins are abstracted as parameters: `urlHost u` is
`new URL(u).hostname` (`none` when the constructor throws), and
`isoString t` is `new Date(t).toISOString()`.  JavaScript truthiness on
strings (`""` falsy) and numbers (`0` falsy) is modelled explicitly. -/

/-- `a || d` for an optional string `a`: `undefined` and `""` are falsy. -/
def jsOrString (o : Option String) (d : String) : String :=
  match o with
  | none => d
  | some s => if s = "" then d else s

/-- `a || false` for an optional boolean. -/
def jsOrBool (o : Option Bool) : Bool :=
  o.getD false

/-- `a || 0` for an optional count. -/
def jsOrNat (o : Option Nat) : Nat :=
  o.getD 0

/-- The `tracking` metadata object attached by the browser extension. -/
structure Tracking where
  createdAt : Option Int
  lastActivated : Option Int
  lastUpdated : Option Int
  activationCount : Option Nat
  navigationCount : Option Nat
  deriving DecidableEq, Repr

/-- A raw tab record as delivered by the browser side. -/
structure RawTab where
  id : Int
  windowId : Int
  index : Int
  title : Option String
  url : Option String
  active : Option Bool
  pinned : Option Bool
  audible : Option Bool
  discarded : Option Bool
  status : Option String
  openerTabId : Option Int
  tracking : Option Tracking
  deriving DecidableEq, Repr

/-- The normalized client-visible tab.  For the timestamp fields the outer
`Option` is "property present on the result object" (only when tracking
metadata exists) and the inner `Option` is JavaScript `null` (falsy stored
timestamp). -/
structure FormattedTab where
  id : String
  browser : Option String
  windowId : String
  index : Int
  title : String
  url : String
  domain : Option String
  active : Bool
  pinned : Bool
  audible : Bool
  discarded : Bool
  status : String
  openerTabId : Option String
  createdAt : Option (Option String)
  lastActivated : Option (Option String)
  lastUpdated : Option (Option String)
  activationCount : Option Nat
  navigationCount : Option Nat
  age : Option String
  deriving DecidableEq, Repr

/-- `new Date(t).toISOString()` guarded by JavaScript number truthiness:
the stored epoch value 0 is falsy, so the field becomes `null`. -/
def trackingStamp (isoString : Int → String) (o : Option Int) :
    Option String :=
  match o with
  | none => none
  | some v => if v = 0 then none else some (isoString v)

/-- `formatTab(tab, browser)` from `src/client.js`. -/
def formatTab (urlHost : String → Option String) (isoString : Int → String)
    (now : Int) (tab : RawTab) (browser : Option String) : FormattedTab :=
  let domain : Option String :=
    match tab.url with
    | some u => urlHost u
    | none => none
  let pfx : String :=
    match browser with
    | some b => if b = "" then "" else b ++ ":"
    | none => ""
  { id := pfx ++ toString tab.id
    browser := match browser with
      | some b => if b = "" then none else some b
      | none => none
    windowId := "w" ++ toString tab.windowId
    index := tab.index
    title := jsOrString tab.title ""
    url := jsOrString tab.url ""
    domain := domain
    active := jsOrBool tab.active
    pinned := jsOrBool tab.pinned
    audible := jsOrBool tab.audible
    discarded := jsOrBool tab.discarded
    status := jsOrString tab.status "unknown"
    openerTabId := tab.openerTabId.map (fun n => toString n)
    createdAt := tab.tracking.map (fun t => trackingStamp isoString t.createdAt)
    lastActivated := tab.tracking.map (fun t => trackingStamp isoString t.lastActivated)
    lastUpdated := tab.tracking.map (fun t => trackingStamp isoString t.lastUpdated)
    activationCount := tab.tracking.map (fun t => jsOrNat t.activationCount)
    navigationCount := tab.tracking.map (fun t => jsOrNat t.navigationCount)
    age := match tab.tracking with
      | none => none
      | some t => match t.createdAt with
        | none => none
        | some v => if v = 0 then none else some (formatAge (now - v)) }

/-- C9: normalization is total and, for every raw tab and optional label,
the id is the decimal tab id prefixed with `label:` exactly when a
(non-empty) label is given, absent title/url normalize to the empty
string, absent booleans to `false`, and the domain is the host parsed
from the raw url, `null` when the url is absent or does not parse. -/
theorem formatTab_normalizes (urlHost : String → Option String)
    (isoString : Int → String) (now : Int) (tab : RawTab)
    (browser : Option String) :
    (∀ b, browser = some b → b ≠ "" →
      (formatTab urlHost isoString now tab browser).id = b ++ ":" ++ toString tab.id) ∧
    (browser = none →
      (formatTab urlHost isoString now tab browser).id = toString tab.id) ∧
    (tab.title = none → (formatTab urlHost isoString now tab browser).title = "") ∧
    (tab.url = none → (formatTab urlHost isoString now tab browser).url = "") ∧
    (tab.active = none → (formatTab urlHost isoString now tab browser).active = false) ∧
    (tab.pinned = none → (formatTab urlHost isoString now tab browser).pinned = false) ∧
    (tab.audible = none → (formatTab urlHost isoString now tab browser).audible = false) ∧
    (tab.discarded = none →
      (formatTab urlHost isoString now tab browser).discarded = false) ∧
    (∀ u, tab.url = some u →
      (formatTab urlHost isoString now tab browser).domain = urlHost u) ∧
    (tab.url = none → (formatTab urlHost isoString now tab browser).domain = none) := by
  refine ⟨?_, ?_, ?_, ?_, ?_, ?_, ?_, ?_, ?_, ?_⟩
  · intro b hb hne
    subst hb
    simp [formatTab, hne, String.append_assoc]
  · intro hb
    subst hb
    simp [formatTab]
  · intro h
    simp [formatTab, jsOrString, h]
  · intro h
    simp [formatTab, jsOrString, h]
  · intro h
    simp [formatTab, jsOrBool, h]
  · intro h
    simp [formatTab, jsOrBool, h]
  · intro h
    simp [formatTab, jsOrBool, h]
  · intro h
    simp [formatTab, jsOrBool, h]
  · intro u hu
    simp [formatTab, hu]
  · intro h
    simp [formatTab, h]

/-- A concrete raw tab with absent title, url and booleans. -/
def bareTab : RawTab :=
  { id := 7, windowId := 3, index := 1, title := none, url := none,
    active := none, pinned := none, audible := none, discarded := none,
    status := none, openerTabId := none, tracking := none }

/-- Witness for C9 on `bareTab`: prefixed id, empty strings, false
booleans, null domain. -/
theorem formatTab_normalizes_witness :
    (formatTab (fun _ => none) (fun _ => "") 0 bareTab (some "chrome")).id =
      "chrome" ++ ":" ++ toString bareTab.id ∧
    (formatTab (fun _ => none) (fun _ => "") 0 bareTab (some "chrome")).title = "" ∧
    (formatTab (fun _ => none) (fun _ => "") 0 bareTab (some "chrome")).url = "" ∧
    (formatTab (fun _ => none) (fun _ => "") 0 bareTab (some "chrome")).active = false ∧
    (formatTab (fun _ => none) (fun _ => "") 0 bareTab (some "chrome")).domain = none :=
  ⟨(formatTab_normalizes (fun _ => none) (fun _ => "") 0 bareTab (some "chrome")).1
      "chrome" rfl (by decide),
    (formatTab_normalizes (fun _ => none) (fun _ => "") 0 bareTab (some "chrome")).2.2.1 rfl,
    (formatTab_normalizes (fun _ => none) (fun _ => "") 0 bareTab (some "chrome")).2.2.2.1 rfl,
    (formatTab_normalizes (fun _ => none) (fun _ => "") 0 bareTab (some "chrome")).2.2.2.2.1 rfl,
    (formatTab_normalizes (fun _ => none) (fun _ => "") 0 bareTab (some "chrome")).2.2.2.2.2.2.2.2.2 rfl⟩

/-! ### Reply resolution (`src/client.js`, `requestOne`'s `conn.on('data')`)

A parsed JSON value is modelled by `JVal`.  Property access on a
non-object or a missing key yields `undefined` (`none`); JSON has no
`undefined` value, so a present `data` key — even one holding `null` —
satisfies `resp.data !== undefined`. -/

/-- A JSON value as produced by `JSON.parse`. -/
inductive JVal where
  | jnull : JVal
  | jbool : Bool → JVal
  | jnum : Int → JVal
  | jstr : String → JVal
  | jarr : List JVal → JVal
  | jobj : List (String × JVal) → JVal

/-- `v[key]`: defined only on objects, `undefined` otherwise.  Parsed JSON
objects are assumed to carry distinct keys, so first match suffices. -/
def jget (v : JVal) (key : String) : Option JVal :=
  match v with
  | .jobj fields => fields.lookup key
  | _ => none

/-- JavaScript truthiness of a JSON value. -/
def jtruthy (v : JVal) : Bool :=
  match v with
  | .jnull => false
  | .jbool b => b
  | .jnum n => n ≠ 0
  | .jstr s => s ≠ ""
  | .jarr _ => true
  | .jobj _ => true

/-- The body of `requestOne`'s reply handler after `JSON.parse` succeeds:
`if (resp.error) reject(new Error(resp.error)); else
resolve(resp.data !== undefined ? resp.data : resp)`. -/
def handleReplyLine (resp : JVal) : Except JVal JVal :=
  match jget resp "error" with
  | some e =>
      if jtruthy e then .error e
      else match jget resp "data" with
        | some d => .ok d
        | none => .ok resp
  | none =>
      match jget resp "data" with
      | some d => .ok d
      | none => .ok resp

/-- The bridge's locally answered status reply, `{browsers: [...]}`,
which carries no `data` wrapper. -/
def statusReply : JVal :=
  .jobj [("browsers", .jarr [.jstr "firefox"])]

/-- C10: when the `error` field is absent or falsy, the handler resolves
with the `data` field whenever that field is present — even when it holds
`null` — and with the entire parsed object otherwise; in particular the
bridge's status reply is delivered whole. -/
theorem requestOne_resolution_shape (resp : JVal)
    (herr : jget resp "error" = none ∨
      ∃ e, jget resp "error" = some e ∧ jtruthy e = false) :
    (∀ d, jget resp "data" = some d → handleReplyLine resp = .ok d) ∧
    (jget resp "data" = none → handleReplyLine resp = .ok resp) ∧
    handleReplyLine statusReply = .ok statusReply := by
  refine ⟨?_, ?_, rfl⟩
  · intro d hd
    unfold handleReplyLine
    rcases herr with h | ⟨e, he, hf⟩
    · rw [h, hd]
    · rw [he]
      dsimp only
      rw [hf, hd]
      simp
  · intro hd
    unfold handleReplyLine
    rcases herr with h | ⟨e, he, hf⟩
    · rw [h, hd]
    · rw [he]
      dsimp only
      rw [hf, hd]
      simp

/-- Witness for C10: a reply whose `data` field is present but `null`
resolves with `null`, and one with no `data` field resolves whole. -/
theorem requestOne_resolution_shape_witness :
    handleReplyLine (.jobj [("data", .jnull)]) = .ok .jnull ∧
    handleReplyLine statusReply = .ok statusReply :=
  ⟨(requestOne_resolution_shape (.jobj [("data", .jnull)]) (Or.inl rfl)).1
      .jnull rfl,
    (requestOne_resolution_shape (.jobj [("data", .jnull)]) (Or.inl rfl)).2.2⟩

/-! ### Request correlator (`src/native-host.js`)

The mutable host state is made explicit: the `pending` map is modelled by
its key list (the entry's callbacks are accounted for by the `outcomes`
log of settled promises, in settlement order), and each entry's armed
10-second timer by membership of `timers`.  A timer callback can run only
while its timer is armed; `clearTimeout` disarms it. -/

/-- One settled promise outcome of `sendToBrowser`. -/
inductive Outcome where
  | data : Nat → Outcome
  | err : String → Outcome
  | timeout : Outcome
  deriving DecidableEq, Repr

/-- The correlator-relevant state of the native host process. -/
structure HostState where
  browserConnected : Bool
  browserName : Option String
  pending : List String
  timers : List String
  outcomes : List (String × Outcome)
  deriving DecidableEq, Repr

/-- An inbound frame on the browser channel. -/
inductive BrowserMsg where
  | hello : Option String → BrowserMsg
  | response : String → Option String → Nat → BrowserMsg
  deriving DecidableEq, Repr

/-- Truthiness of an optional string (`undefined` and `""` are falsy). -/
def jsTruthyStr : Option String → Bool
  | none => false
  | some s => s ≠ ""

/-- `handleBrowserMessage(msg)`: a `hello` records the connection; a
response whose (truthy) `requestId` has a PendingRequest cancels its
timer, removes the entry and settles the promise — rejecting with the
carried error when truthy, resolving with `data` otherwise; any other
response is ignored. -/
def handleBrowserMessage (s : HostState) (m : BrowserMsg) : HostState :=
  match m with
  | .hello b =>
      { s with browserConnected := true, browserName := some (jsOrString b "unknown") }
  | .response rid err d =>
      if rid ≠ "" ∧ rid ∈ s.pending then
        { s with timers := s.timers.erase rid,
                 pending := s.pending.erase rid,
                 outcomes := s.outcomes ++
                   [(rid, if jsTruthyStr err then .err (err.getD "") else .data d)] }
      else s

/-- The timer callback registered by `sendToBrowser`: it can only run
while the timer is still armed; it deletes the PendingRequest and rejects
with the timeout error. -/
def fireTimeout (s : HostState) (rid : String) : HostState :=
  if rid ∈ s.timers then
    { s with timers := s.timers.erase rid,
             pending := s.pending.erase rid,
             outcomes := s.outcomes ++ [(rid, .timeout)] }
  else s

/-- `sendToBrowser(action, params)`: reject immediately when no browser is
connected, otherwise register the fresh `requestId` in the pending map and
arm its timer (the emitted BrowserCommand frame is not modelled). -/
def sendToBrowser (s : HostState) (rid : String) : HostState × Option String :=
  if s.browserConnected = false then (s, some "No browser connected")
  else ({ s with pending := rid :: s.pending, timers := rid :: s.timers }, none)

/-- An event interleaved on the host's single-threaded event loop. -/
inductive HostEv where
  | browser : BrowserMsg → HostEv
  | timerFire : String → HostEv
  deriving DecidableEq, Repr

def hostStep (s : HostState) : HostEv → HostState
  | .browser m => handleBrowserMessage s m
  | .timerFire rid => fireTimeout s rid

def hostSteps (s : HostState) (evs : List HostEv) : HostState :=
  evs.foldl hostStep s

theorem hostSteps_cons (s : HostState) (ev : HostEv) (evs : List HostEv) :
    hostSteps s (ev :: evs) = hostSteps (hostStep s ev) evs :=
  rfl

/-- Whether an event concerns request `rid`. -/
def isEventFor (rid : String) : HostEv → Bool
  | .browser (.hello _) => false
  | .browser (.response r _ _) => r == rid
  | .timerFire r => r == rid

/-- The outcome an event for `rid` settles the request with. -/
def evOutcome : HostEv → Outcome
  | .browser (.response _ err d) =>
      if jsTruthyStr err then .err (err.getD "") else .data d
  | _ => .timeout

/-- The outcomes delivered to request `rid`, in settlement order. -/
def outcomesFor (rid : String) (s : HostState) : List Outcome :=
  (s.outcomes.filter (fun p => p.1 == rid)).map (fun p => p.2)

theorem hostStep_other (s : HostState) (rid : String) (ev : HostEv)
    (h : isEventFor rid ev = false) :
    (hostStep s ev).pending.count rid = s.pending.count rid ∧
    (hostStep s ev).timers.count rid = s.timers.count rid ∧
    outcomesFor rid (hostStep s ev) = outcomesFor rid s := by
  cases ev with
  | browser m =>
      cases m with
      | hello b => simp [hostStep, handleBrowserMessage, outcomesFor]
      | response r err d =>
          have hne : ¬ r = rid := by simpa [isEventFor] using h
          by_cases hg : r ≠ "" ∧ r ∈ s.pending
          · simp only [hostStep, handleBrowserMessage, if_pos hg]
            refine ⟨List.count_erase_of_ne (fun hh => hne hh.symm) _,
              List.count_erase_of_ne (fun hh => hne hh.symm) _, ?_⟩
            simp [outcomesFor, List.filter_append, hne]
          · simp [hostStep, handleBrowserMessage, hg]
  | timerFire r =>
      have hne : ¬ r = rid := by simpa [isEventFor] using h
      by_cases hg : r ∈ s.timers
      · simp only [hostStep, fireTimeout, if_pos hg]
        refine ⟨List.count_erase_of_ne (fun hh => hne hh.symm) _,
          List.count_erase_of_ne (fun hh => hne hh.symm) _, ?_⟩
        simp [outcomesFor, List.filter_append, hne]
      · simp [hostStep, fireTimeout, hg]

theorem hostStep_late (s : HostState) (rid : String) (ev : HostEv)
    (hp : rid ∉ s.pending) (ht : rid ∉ s.timers)
    (h : isEventFor rid ev = true) :
    hostStep s ev = s := by
  cases ev with
  | browser m =>
      cases m with
      | hello b => simp [isEventFor] at h
      | response r err d =>
          have hr : r = rid := by simpa [isEventFor] using h
          subst hr
          have hng : ¬ (r ≠ "" ∧ r ∈ s.pending) := fun hc => hp hc.2
          simp [hostStep, handleBrowserMessage, hng]
  | timerFire r =>
      have hr : r = rid := by simpa [isEventFor] using h
      subst hr
      simp [hostStep, fireTimeout, ht]

theorem hostStep_resolves (s : HostState) (rid : String) (ev : HostEv)
    (hrid : ¬ rid = "")
    (hp : s.pending.count rid = 1) (ht : s.timers.count rid = 1)
    (h : isEventFor rid ev = true) :
    (hostStep s ev).pending.count rid = 0 ∧
    (hostStep s ev).timers.count rid = 0 ∧
    outcomesFor rid (hostStep s ev) = outcomesFor rid s ++ [evOutcome ev] := by
  have hpm : rid ∈ s.pending := by
    by_contra hc
    rw [List.count_eq_zero_of_not_mem hc] at hp
    exact absurd hp (by norm_num)
  have htm : rid ∈ s.timers := by
    by_contra hc
    rw [List.count_eq_zero_of_not_mem hc] at ht
    exact absurd ht (by norm_num)
  cases ev with
  | browser m =>
      cases m with
      | hello b => simp [isEventFor] at h
      | response r err d =>
          have hr : r = rid := by simpa [isEventFor] using h
          subst hr
          have hg : r ≠ "" ∧ r ∈ s.pending := ⟨hrid, hpm⟩
          simp only [hostStep, handleBrowserMessage, if_pos hg]
          refine ⟨?_, ?_, ?_⟩
          · rw [List.count_erase_self, hp]
          · rw [List.count_erase_self, ht]
          · simp [outcomesFor, List.filter_append, evOutcome]
  | timerFire r =>
      have hr : r = rid := by simpa [isEventFor] using h
      subst hr
      simp only [hostStep, fireTimeout, if_pos htm]
      refine ⟨?_, ?_, ?_⟩
      · rw [List.count_erase_self, hp]
      · rw [List.count_erase_self, ht]
      · simp [outcomesFor, List.filter_append, evOutcome]

theorem hostSteps_stable (rid : String) (evs : List HostEv) :
    ∀ s : HostState, s.pending.count rid = 0 → s.timers.count rid = 0 →
    (hostSteps s evs).pending.count rid = 0 ∧
    (hostSteps s evs).timers.count rid = 0 ∧
    outcomesFor rid (hostSteps s evs) = outcomesFor rid s := by
  induction evs with
  | nil => exact fun s hp ht => ⟨hp, ht, rfl⟩
  | cons ev rest ih =>
      intro s hp ht
      rw [hostSteps_cons]
      by_cases hfor : isEventFor rid ev = true
      · rw [hostStep_late s rid ev (List.count_eq_zero.mp hp)
          (List.count_eq_zero.mp ht) hfor]
        exact ih s hp ht
      · have hfor' : isEventFor rid ev = false := by
          revert hfor
          cases isEventFor rid ev <;> simp
        obtain ⟨h1, h2, h3⟩ := hostStep_other s rid ev hfor'
        obtain ⟨g1, g2, g3⟩ := ih (hostStep s ev) (h1.trans hp) (h2.trans ht)
        exact ⟨g1, g2, g3.trans h3⟩

theorem hostSteps_first (rid : String) (hrid : ¬ rid = "") (evs : List HostEv)
    (e : HostEv) :
    ∀ s : HostState, s.pending.count rid = 1 → s.timers.count rid = 1 →
    (evs.filter (isEventFor rid)).head? = some e →
    (hostSteps s evs).pending.count rid = 0 ∧
    (hostSteps s evs).timers.count rid = 0 ∧
    outcomesFor rid (hostSteps s evs) = outcomesFor rid s ++ [evOutcome e] := by
  induction evs with
  | nil =>
      intro s _ _ hh
      simp at hh
  | cons ev rest ih =>
      intro s hp ht hh
      rw [hostSteps_cons]
      by_cases hfor : isEventFor rid ev = true
      · rw [List.filter_cons, if_pos hfor, List.head?_cons, Option.some_inj] at hh
        obtain ⟨r1, r2, r3⟩ := hostStep_resolves s rid ev hrid hp ht hfor
        obtain ⟨g1, g2, g3⟩ := hostSteps_stable rid rest (hostStep s ev) r1 r2
        refine ⟨g1, g2, ?_⟩
        rw [g3, r3, hh]
      · have hfor' : isEventFor rid ev = false := by
          revert hfor
          cases isEventFor rid ev <;> simp
        rw [List.filter_cons, if_neg (by simp [hfor'])] at hh
        obtain ⟨h1, h2, h3⟩ := hostStep_other s rid ev hfor'
        obtain ⟨g1, g2, g3⟩ := ih (hostStep s ev) (h1.trans hp) (h2.trans ht) hh
        exact ⟨g1, g2, by rw [g3, h3]⟩

/-- C3: a request registered by `sendToBrowser` while a browser is
connected is settled exactly once — by the outcome of whichever event for
its `requestId` (matching browser response, or timer firing) comes first —
its PendingRequest and timer are gone afterwards, and a response arriving
when no PendingRequest matches leaves the state entirely unchanged. -/
theorem correlator_exactly_once (s0 : HostState) (rid : String)
    (evs : List HostEv) (e : HostEv)
    (hconn : s0.browserConnected = true)
    (hrid : rid ≠ "")
    (hp : rid ∉ s0.pending) (ht : rid ∉ s0.timers)
    (ho : outcomesFor rid s0 = [])
    (hfirst : (evs.filter (isEventFor rid)).head? = some e) :
    (sendToBrowser s0 rid).2 = none ∧
    outcomesFor rid (hostSteps (sendToBrowser s0 rid).1 evs) = [evOutcome e] ∧
    rid ∉ (hostSteps (sendToBrowser s0 rid).1 evs).pending ∧
    rid ∉ (hostSteps (sendToBrowser s0 rid).1 evs).timers ∧
    (∀ (s' : HostState) (err : Option String) (d : Nat), rid ∉ s'.pending →
      hostStep s' (.browser (.response rid err d)) = s') := by
  have hsend : (sendToBrowser s0 rid).1 =
      { s0 with pending := rid :: s0.pending, timers := rid :: s0.timers } := by
    simp [sendToBrowser, hconn]
  have hsend2 : (sendToBrowser s0 rid).2 = none := by
    simp [sendToBrowser, hconn]
  have hp1 : ((sendToBrowser s0 rid).1).pending.count rid = 1 := by
    rw [hsend]
    simp [List.count_cons_self, List.count_eq_zero_of_not_mem hp]
  have ht1 : ((sendToBrowser s0 rid).1).timers.count rid = 1 := by
    rw [hsend]
    simp [List.count_cons_self, List.count_eq_zero_of_not_mem ht]
  have hout : outcomesFor rid (sendToBrowser s0 rid).1 = outcomesFor rid s0 := by
    rw [hsend]
    simp [outcomesFor]
  obtain ⟨g1, g2, g3⟩ := hostSteps_first rid hrid evs e _ hp1 ht1 hfirst
  refine ⟨hsend2, ?_, List.count_eq_zero.mp g1, List.count_eq_zero.mp g2, ?_⟩
  · rw [g3, hout, ho, List.nil_append]
  · intro s' err d hps'
    have hng : ¬ (rid ≠ "" ∧ rid ∈ s'.pending) := fun hc => hps' hc.2
    simp [hostStep, handleBrowserMessage, hng]

/-- The bridge state right after the browser's `hello`. -/
def readyState : HostState :=
  { browserConnected := true, browserName := some "firefox",
    pending := [], timers := [], outcomes := [] }

/-- Witness for C3: from the connected state, a request whose timer fires
before a matching response is settled exactly once, with the timeout
outcome, and the late response is discarded. -/
theorem correlator_exactly_once_witness :
    outcomesFor "r1" (hostSteps (sendToBrowser readyState "r1").1
        [.timerFire "r1", .browser (.response "r1" none 5)]) = [.timeout] ∧
    "r1" ∉ (hostSteps (sendToBrowser readyState "r1").1
        [.timerFire "r1", .browser (.response "r1" none 5)]).pending := by
  have h := correlator_exactly_once readyState "r1"
    [.timerFire "r1", .browser (.response "r1" none 5)] (.timerFire "r1")
    rfl (by decide) (by simp [readyState]) (by simp [readyState]) rfl rfl
  exact ⟨h.2.1, h.2.2.1⟩

end Tabctl
